import Mathlib

/-!
Verification of the OrderService repository (kojustin/orderservice).

The development shallowly embeds the order lifecycle logic of `src/main.go`:
the `orders` table of the SQLite store, and the three operations `Insert`
(Create), `List` and `Take` (Claim) of the `OrderService` type, together with
the query-parameter parser `parseQueryParametersForList`.

Modelling conventions:
* The SQLite table `orders (id, distance, status)` is a list of rows in
  insertion (rowid) order plus the next auto-assigned rowid.  Ids are `Int`
  (Go `int64`; no arithmetic other than increment occurs, so overflow is
  irrelevant to the claims).  `distance` is `Int`: the value inserted is the
  integer `distance.value` of the Google Maps response (Go `int64`), and the
  code performs no arithmetic on it, so the Go `float64` round-trip is
  observationally the identity here.
* The outbound HTTP call and JSON decoding inside `Insert` are external
  collaborators; `Insert` takes the decoded `GoogleMapsResponse` as input.
  Transport and decode failures abort before any of the logic embedded here.
* `Take` in Go runs inside a transaction: SELECT status, check, UPDATE,
  commit on success and rollback on error.  No store write precedes the
  error returns, and the transaction serializes concurrent claims, so each
  call is one atomic step from store to store paired with a result.
-/

namespace OrderService

/-- GMapsDistance, a struct in the GoogleMapsResponse (src/main.go). -/
structure GMapsDistance where
  Value : Int
  Text : String
deriving DecidableEq

/-- One element of a row of the Google Maps distancematrix response. -/
structure GMapsElement where
  Distance : GMapsDistance
deriving DecidableEq

/-- One row of the Google Maps distancematrix response. -/
structure GMapsRow where
  Elements : List GMapsElement
deriving DecidableEq

/-- GoogleMapsResponse, the decoded HTTP response from the distancematrix
API (src/main.go). -/
structure GoogleMapsResponse where
  Rows : List GMapsRow
deriving DecidableEq

/-- StateUnassigned represents an order that has been created
(`OrderState` is a string alias in the Go source). -/
def StateUnassigned : String := "UNASSIGNED"

/-- StateTaken represents an order that has been taken or assigned. -/
def StateTaken : String := "TAKEN"

/-- Order represents an order in the system; exactly the schema of rows in
the database (src/main.go). -/
structure Order where
  Id : Int
  Distance : Int
  State : String
deriving DecidableEq

/-- The SQLite `orders` table: rows in insertion (rowid) order, plus the
next auto-assigned rowid. -/
structure OrdersDb where
  rows : List Order
  nextId : Int
deriving DecidableEq

/-- INSERT INTO orders (distance, status) values(?, ?): appends a row with
the next rowid and returns LastInsertId together with the new table. -/
def dbInsert (db : OrdersDb) (distance : Int) (status : String) : Int × OrdersDb :=
  (db.nextId,
   { rows := db.rows ++ [{ Id := db.nextId, Distance := distance, State := status }],
     nextId := db.nextId + 1 })

/-- Insert adds a new entry to the database (src/main.go `Insert`), given the
decoded distance-lookup response.  Returns the created order or the error,
paired with the resulting table (unchanged on every error path). -/
def Insert (db : OrdersDb) (mapResponse : GoogleMapsResponse) :
    Except String Order × OrdersDb :=
  match mapResponse.Rows with
  | [] => (Except.error "Google Maps response missing rows", db)
  | firstRow :: _ =>
    match firstRow.Elements with
    | [] => (Except.error "Google Maps response missing rows.elements", db)
    | firstElement :: _ =>
      let res := dbInsert db firstElement.Distance.Value StateUnassigned
      (Except.ok
        { Id := res.1, Distance := firstElement.Distance.Value, State := StateUnassigned },
       res.2)

/-- Result window of `SELECT id, distance, status FROM orders LIMIT ? OFFSET ?`
under SQLite semantics: a negative OFFSET skips nothing, a negative LIMIT
means unlimited.  Rows come back in rowid (insertion) order. -/
def sqlWindow (rows : List Order) (lim offset : Int) : List Order :=
  let dropped := rows.drop offset.toNat
  if lim < 0 then dropped else dropped.take lim.toNat

/-- The row-scanning loop of `List` (src/main.go): maps each stored status
onto the enumeration and fails the whole call on any other status. -/
def scanRows : List Order → Except String (List Order)
  | [] => Except.ok []
  | r :: rest =>
    if r.State = StateTaken then
      (scanRows rest).map
        (fun orders => { Id := r.Id, Distance := r.Distance, State := StateTaken } :: orders)
    else if r.State = StateUnassigned then
      (scanRows rest).map
        (fun orders => { Id := r.Id, Distance := r.Distance, State := StateUnassigned } :: orders)
    else Except.error ("found unknonwn status " ++ r.State)

/-- List returns a listing of orders (src/main.go `List`): the query passes
`limit` as LIMIT and `page` as the raw OFFSET, then scans the rows.  Named
`ListOrders` because `List` is the Lean list type. -/
def ListOrders (db : OrdersDb) (page lim : Int) : Except String (List Order) :=
  scanRows (sqlWindow db.rows lim page)

/-- The result of `Take`: success, errTaken or errNoSuchOrder
(src/main.go). -/
inductive TakeResult where
  | success : TakeResult
  | errTaken : TakeResult
  | errNoSuchOrder : TakeResult
deriving DecidableEq

/-- Effect on one row of `UPDATE orders SET status = TAKEN WHERE id = ?`. -/
def updSt (orderID : Int) (r : Order) : Order :=
  if r.Id == orderID then { r with State := StateTaken } else r

/-- SELECT (status) FROM orders where id == ? — the first matching row. -/
def findRow (db : OrdersDb) (orderID : Int) : Option Order :=
  db.rows.find? (fun r => r.Id == orderID)

/-- Take marks an order as taken (src/main.go `Take`): inside one
transaction it reads the status of the row, fails with errNoSuchOrder if
there is none, fails with errTaken if the status is not UNASSIGNED, and
otherwise updates the status to TAKEN and commits.  Every error path rolls
back, leaving the table unchanged. -/
def Take (db : OrdersDb) (orderID : Int) : TakeResult × OrdersDb :=
  match findRow db orderID with
  | none => (TakeResult.errNoSuchOrder, db)
  | some row =>
    if row.State ≠ StateUnassigned then (TakeResult.errTaken, db)
    else
      (TakeResult.success,
       { db with rows := db.rows.map (updSt orderID) })

/-- N Claim calls on the same order id.  Each `Take` runs in a serializing
transaction, so any interleaving of N concurrent calls is equivalent to
running them one after another in some order; with all calls targeting the
same id, every such order is this sequential composition. -/
def runTakes (db : OrdersDb) (orderID : Int) : Nat → List TakeResult × OrdersDb
  | 0 => ([], db)
  | n + 1 =>
    let first := Take db orderID
    let rest := runTakes first.2 orderID n
    (first.1 :: rest.1, rest.2)

/-- One operation of the lifecycle manager, for reasoning about arbitrary
sequences of Create/List/Claim calls.  `ListOrders` performs no store write,
so only its store effect (none) matters here. -/
inductive Op where
  | create (resp : GoogleMapsResponse) : Op
  | listOp (page lim : Int) : Op
  | take (orderID : Int) : Op

/-- Store effect of one operation. -/
def applyOp (db : OrdersDb) : Op → OrdersDb
  | Op.create resp => (Insert db resp).2
  | Op.listOp _ _ => db
  | Op.take orderID => (Take db orderID).2

/-- Store effect of a sequence of operations. -/
def applyOps (db : OrdersDb) (ops : List Op) : OrdersDb :=
  ops.foldl applyOp db

/-- Numeric value of a digit run, as accumulated by integer parsing. -/
def atoiDigits (cs : List Char) : Nat :=
  cs.foldl (fun acc c => acc * 10 + (c.toNat - 48)) 0

/-- Model of Go strconv.Atoi (base 10, 64-bit int): optional sign then
digits; returns the value and an error of none.  On a syntax error it
returns 0, on range overflow the clamped 64-bit bound, with the error. -/
def atoi (s : String) : Int × Option String :=
  match s.data with
  | [] => (0, some "invalid syntax")
  | c :: cs =>
    let signDigits : Bool × List Char :=
      if c = '-' then (true, cs)
      else if c = '+' then (false, cs)
      else (false, c :: cs)
    match signDigits with
    | (neg, digits) =>
      if digits.isEmpty then (0, some "invalid syntax")
      else if digits.all Char.isDigit then
        let n : Int := (atoiDigits digits : Nat)
        if neg then
          if n > 2 ^ 63 then (-(2 ^ 63), some "value out of range")
          else (-n, none)
        else
          if n ≥ 2 ^ 63 then (2 ^ 63 - 1, some "value out of range")
          else (n, none)
      else (0, some "invalid syntax")

/-- Query-parameter parsing for List (src/main.go
`parseQueryParametersForList`).  The Go input `url.Values` is the two lists
of values supplied for the `page` and the `limit` keys; the result is
(page, limit, error).  Defaults page=0, limit=50 apply when a key is
unspecified; a repeated key returns the defaults with a nil error, exactly
as the Go code does. -/
def parseQueryParametersForList (pageQ limitQ : List String) :
    Int × Int × Option String :=
  let page : Int := 0
  let lim : Int := 50
  if pageQ.length > 1 ∨ limitQ.length > 1 then (page, lim, none)
  else
    let pageStep : Int × Option String :=
      match pageQ with
      | [v] => atoi v
      | _ => (page, none)
    match pageStep with
    | (p, some e) => (p, lim, some e)
    | (p, none) =>
      let limStep : Int × Option String :=
        match limitQ with
        | [v] => atoi v
        | _ => (lim, none)
      match limStep with
      | (l, some e) => (p, l, some e)
      | (l, none) => (p, l, none)

/-- Well-formedness of the orders table, as guaranteed by SQLite rowids:
rows sit in strictly increasing id order and every id is below the next
auto-assigned one. -/
def WF (db : OrdersDb) : Prop :=
  db.rows.Pairwise (fun a b => a.Id < b.Id) ∧ ∀ r ∈ db.rows, r.Id < db.nextId

instance : DecidablePred WF := fun db => by
  unfold WF; infer_instance

/-- Every stored status is one of the two canonical values. -/
def allCanonical (db : OrdersDb) : Prop :=
  ∀ r ∈ db.rows, r.State = StateUnassigned ∨ r.State = StateTaken

instance : DecidablePred allCanonical := fun db => by
  unfold allCanonical; infer_instance

/-- The listing window as claim C4 words it: at most `lim` rows starting at
offset `page * lim`.  Stated from the claim, for comparison with the window
`ListOrders` actually reads. -/
def listSpecWindow (db : OrdersDb) (page lim : Int) : List Order :=
  (db.rows.drop (page * lim).toNat).take lim.toNat

/-- A one-row table holding a fresh unassigned order, used as concrete
witness input. -/
def dbOne : OrdersDb :=
  { rows := [{ Id := 7, Distance := 2489, State := StateUnassigned }], nextId := 8 }

/-- The table `dbOne` after its order has been claimed, used as concrete
witness input. -/
def dbOneTaken : OrdersDb :=
  { rows := [{ Id := 7, Distance := 2489, State := StateTaken }], nextId := 8 }

/-- A three-row table of unassigned orders, used as concrete witness
input. -/
def dbThree : OrdersDb :=
  { rows := [{ Id := 1, Distance := 10, State := StateUnassigned },
             { Id := 2, Distance := 20, State := StateUnassigned },
             { Id := 3, Distance := 30, State := StateUnassigned }], nextId := 4 }

/-- A table whose single row carries the corrupt status observed in an
earlier revision of the code, used as concrete witness input. -/
def dbCorrupt : OrdersDb :=
  { rows := [{ Id := 5, Distance := 11, State := "INITAL" }], nextId := 6 }

/-! Helper lemmas about the embedded operations. -/

theorem updSt_Id (oid : Int) (r : Order) : (updSt oid r).Id = r.Id := by
  unfold updSt; split <;> rfl

theorem updSt_Distance (oid : Int) (r : Order) :
    (updSt oid r).Distance = r.Distance := by
  unfold updSt; split <;> rfl

theorem updSt_taken (oid : Int) (r : Order) (h : r.State = StateTaken) :
    (updSt oid r).State = StateTaken := by
  unfold updSt; split
  · rfl
  · exact h

theorem updSt_of_eq (oid : Int) (r : Order) (h : r.Id = oid) :
    updSt oid r = { r with State := StateTaken } := by
  unfold updSt
  simp [h]

theorem updSt_of_ne (oid : Int) (r : Order) (h : r.Id ≠ oid) :
    updSt oid r = r := by
  unfold updSt
  simp [h]

theorem take_of_none {db : OrdersDb} {oid : Int} (h : findRow db oid = none) :
    Take db oid = (TakeResult.errNoSuchOrder, db) := by
  unfold Take; rw [h]

theorem take_of_not_unassigned {db : OrdersDb} {oid : Int} {r : Order}
    (h : findRow db oid = some r) (hs : r.State ≠ StateUnassigned) :
    Take db oid = (TakeResult.errTaken, db) := by
  unfold Take; rw [h]; simp [hs]

theorem take_of_unassigned {db : OrdersDb} {oid : Int} {r : Order}
    (h : findRow db oid = some r) (hs : r.State = StateUnassigned) :
    Take db oid =
      (TakeResult.success, { db with rows := db.rows.map (updSt oid) }) := by
  unfold Take; rw [h]; simp [hs]

theorem take_success_inv {db db2 : OrdersDb} {oid : Int}
    (h : Take db oid = (TakeResult.success, db2)) :
    ∃ r, findRow db oid = some r ∧ r.State = StateUnassigned ∧
      db2 = { db with rows := db.rows.map (updSt oid) } := by
  rcases hfr : findRow db oid with _ | r
  · rw [take_of_none hfr] at h
    exact absurd (congrArg Prod.fst h) (by simp)
  · by_cases hs : r.State = StateUnassigned
    · refine ⟨r, rfl, hs, ?_⟩
      rw [take_of_unassigned hfr hs] at h
      exact (congrArg Prod.snd h).symm
    · rw [take_of_not_unassigned hfr hs] at h
      exact absurd (congrArg Prod.fst h) (by simp)

theorem findRow_map_updSt (db : OrdersDb) (oid target : Int) :
    findRow { db with rows := db.rows.map (updSt oid) } target
      = (findRow db target).map (updSt oid) := by
  unfold findRow
  rw [List.find?_map]
  have hps : ((fun r : Order => r.Id == target) ∘ updSt oid)
      = (fun r : Order => r.Id == target) := by
    funext r
    simp [Function.comp, updSt_Id]
  rw [hps]

theorem findRow_mem {db : OrdersDb} {oid : Int} {r : Order}
    (h : findRow db oid = some r) : r ∈ db.rows := by
  unfold findRow at h
  exact List.mem_of_find?_eq_some h

theorem findRow_id {db : OrdersDb} {oid : Int} {r : Order}
    (h : findRow db oid = some r) : r.Id = oid := by
  have := List.find?_some h
  simpa using this

theorem findRow_take_success {db db2 : OrdersDb} {oid : Int} {r : Order}
    (hfr : findRow db oid = some r) (_hs : r.State = StateUnassigned)
    (h : Take db oid = (TakeResult.success, db2)) :
    findRow db2 oid = some { r with State := StateTaken } := by
  rcases take_success_inv h with ⟨r2, hfr2, _, hdb2⟩
  rw [hfr] at hfr2
  cases hfr2
  rw [hdb2, findRow_map_updSt, hfr]
  simp [updSt_of_eq oid r (findRow_id hfr)]

theorem runTakes_none {db : OrdersDb} {oid : Int}
    (h : findRow db oid = none) (n : Nat) :
    runTakes db oid n = (List.replicate n TakeResult.errNoSuchOrder, db) := by
  induction n with
  | zero => rfl
  | succ m ih =>
    unfold runTakes
    rw [take_of_none h]
    simp [ih, List.replicate_succ]

theorem runTakes_not_unassigned {db : OrdersDb} {oid : Int} {r : Order}
    (h : findRow db oid = some r) (hs : r.State ≠ StateUnassigned) (n : Nat) :
    runTakes db oid n = (List.replicate n TakeResult.errTaken, db) := by
  induction n with
  | zero => rfl
  | succ m ih =>
    unfold runTakes
    rw [take_of_not_unassigned h hs]
    simp [ih, List.replicate_succ]

theorem runTakes_unassigned {db : OrdersDb} {oid : Int} {r : Order}
    (h : findRow db oid = some r) (hs : r.State = StateUnassigned) (n : Nat) :
    (runTakes db oid (n + 1)).1
      = TakeResult.success :: List.replicate n TakeResult.errTaken := by
  unfold runTakes
  rw [take_of_unassigned h hs]
  have hfr2 : findRow { db with rows := db.rows.map (updSt oid) } oid
      = some { r with State := StateTaken } := by
    rw [findRow_map_updSt, h]
    simp [updSt_of_eq oid r (findRow_id h)]
  have hrest := runTakes_not_unassigned hfr2 (by simp [StateTaken, StateUnassigned]) n
  simp [hrest]

theorem count_success_replicate (n : Nat) (x : TakeResult)
    (hx : x ≠ TakeResult.success) :
    (List.replicate n x).count TakeResult.success = 0 := by
  rw [List.count_replicate]
  simp [hx]

/-- A row keeps a TAKEN state across one `Take` call, whatever its target. -/
theorem taken_persists_take {db : OrdersDb} {oid : Int} {r : Order}
    (h : findRow db oid = some r) (hs : r.State = StateTaken) (oid2 : Int) :
    ∃ r2, findRow (Take db oid2).2 oid = some r2 ∧ r2.State = StateTaken := by
  rcases hfr2 : findRow db oid2 with _ | row
  · rw [take_of_none hfr2]
    exact ⟨r, h, hs⟩
  · by_cases hrs : row.State = StateUnassigned
    · rw [take_of_unassigned hfr2 hrs]
      refine ⟨updSt oid2 r, ?_, updSt_taken oid2 r hs⟩
      show findRow { db with rows := db.rows.map (updSt oid2) } oid = _
      rw [findRow_map_updSt, h]
      rfl
    · rw [take_of_not_unassigned hfr2 hrs]
      exact ⟨r, h, hs⟩

/-- A found row survives an insert (the insert only appends). -/
theorem findRow_insert {db : OrdersDb} {oid : Int} {r : Order}
    (h : findRow db oid = some r) (resp : GoogleMapsResponse) :
    findRow (Insert db resp).2 oid = some r := by
  rcases hrows : resp.Rows with _ | ⟨fr, rest⟩
  · simp [Insert, hrows, h]
  · rcases helems : fr.Elements with _ | ⟨el, els⟩
    · simp [Insert, hrows, helems, h]
    · simp only [Insert, hrows, helems]
      show findRow { rows := db.rows ++ [_], nextId := _ } oid = some r
      unfold findRow at h ⊢
      simp [List.find?_append, h]

/-- A row keeps a TAKEN state across any sequence of operations. -/
theorem taken_persists_ops {db : OrdersDb} {oid : Int} {r : Order}
    (h : findRow db oid = some r) (hs : r.State = StateTaken) (ops : List Op) :
    ∃ r2, findRow (applyOps db ops) oid = some r2 ∧ r2.State = StateTaken := by
  induction ops generalizing db r with
  | nil => exact ⟨r, h, hs⟩
  | cons op rest ih =>
    have hstep : ∃ r2, findRow (applyOp db op) oid = some r2 ∧
        r2.State = StateTaken := by
      cases op with
      | create resp => exact ⟨r, findRow_insert h resp, hs⟩
      | listOp page lim => exact ⟨r, h, hs⟩
      | take oid2 => exact taken_persists_take h hs oid2
    rcases hstep with ⟨r2, h2, hs2⟩
    simpa [applyOps] using ih h2 hs2

theorem unassigned_ne_taken : StateUnassigned ≠ StateTaken := by decide

theorem order_eta_taken (r : Order) (h : r.State = StateTaken) :
    ({ Id := r.Id, Distance := r.Distance, State := StateTaken } : Order) = r := by
  cases r
  simp_all

theorem order_eta_unassigned (r : Order) (h : r.State = StateUnassigned) :
    ({ Id := r.Id, Distance := r.Distance, State := StateUnassigned } : Order) = r := by
  cases r
  simp_all

/-- The scan loop reproduces the rows exactly when every status is
canonical. -/
theorem scanRows_ok_of_canonical (rows : List Order)
    (h : ∀ r ∈ rows, r.State = StateUnassigned ∨ r.State = StateTaken) :
    scanRows rows = Except.ok rows := by
  induction rows with
  | nil => rfl
  | cons r rest ih =>
    have hr := h r (by simp)
    have hrest := ih (fun x hx => h x (by simp [hx]))
    rcases hr with hu | ht
    · have hnt : ¬ r.State = StateTaken := by
        rw [hu]; exact unassigned_ne_taken
      simp [scanRows, hnt, hu, hrest, Except.map, unassigned_ne_taken,
        order_eta_unassigned r hu]
    · simp [scanRows, ht, hrest, Except.map, order_eta_taken r ht]

/-- The scan loop fails the whole call when the scanned rows contain any
status outside the enumeration. -/
theorem scanRows_error_of_bad {rows : List Order} {r : Order}
    (hmem : r ∈ rows) (hu : r.State ≠ StateUnassigned)
    (ht : r.State ≠ StateTaken) :
    ∃ msg, scanRows rows = Except.error msg := by
  induction rows with
  | nil => cases hmem
  | cons x rest ih =>
    rcases List.mem_cons.mp hmem with hx | hx
    · subst hx
      exact ⟨"found unknonwn status " ++ r.State, by simp [scanRows, hu, ht]⟩
    · rcases ih hx with ⟨msg, hmsg⟩
      by_cases hxt : x.State = StateTaken
      · exact ⟨msg, by simp [scanRows, hxt, hmsg, Except.map]⟩
      · by_cases hxu : x.State = StateUnassigned
        · exact ⟨msg,
            by simp [scanRows, hxt, hxu, hmsg, Except.map, unassigned_ne_taken]⟩
        · exact ⟨"found unknonwn status " ++ x.State, by simp [scanRows, hxt, hxu]⟩

theorem sqlWindow_sublist (rows : List Order) (lim offset : Int) :
    (sqlWindow rows lim offset).Sublist rows := by
  unfold sqlWindow
  split
  · exact List.drop_sublist _ _
  · exact (List.take_sublist _ _).trans (List.drop_sublist _ _)

/-! Claim theorems. -/

/-- C1.  At-most-once claim: for any order id, if N concurrent Claim (Take)
calls are issued against it — equivalently, by the serializing transaction,
N consecutive atomic Take steps — at most one succeeds; with the order
initially claimable exactly one succeeds; the losers fail with errTaken and
all N fail with errNoSuchOrder if the id never existed. -/
theorem claim_C1_at_most_once_take (db : OrdersDb) (oid : Int) (n : Nat) :
    (runTakes db oid n).1.count TakeResult.success ≤ 1 ∧
    (findRow db oid = none →
      (runTakes db oid n).1 = List.replicate n TakeResult.errNoSuchOrder) ∧
    (∀ r, findRow db oid = some r →
      ∀ res ∈ (runTakes db oid n).1,
        res = TakeResult.success ∨ res = TakeResult.errTaken) ∧
    (∀ r, findRow db oid = some r → r.State = StateUnassigned → 0 < n →
      (runTakes db oid n).1.count TakeResult.success = 1) := by
  rcases hfr : findRow db oid with _ | r
  · have h1 : (runTakes db oid n).1 = List.replicate n TakeResult.errNoSuchOrder := by
      rw [runTakes_none hfr n]
    refine ⟨?_, fun _ => h1, ?_, ?_⟩
    · rw [h1, count_success_replicate n TakeResult.errNoSuchOrder (by decide)]
      exact Nat.zero_le 1
    · intro r hr; simp at hr
    · intro r hr; simp at hr
  · by_cases hs : r.State = StateUnassigned
    · cases n with
      | zero =>
        refine ⟨by simp [runTakes], ?_, ?_, ?_⟩
        · intro hnone; simp at hnone
        · intro r' _ res hres; simp [runTakes] at hres
        · intro r' _ _ hn; cases hn
      | succ m =>
        have h1 : (runTakes db oid (m + 1)).1
            = TakeResult.success :: List.replicate m TakeResult.errTaken :=
          runTakes_unassigned hfr hs m
        refine ⟨?_, ?_, ?_, ?_⟩
        · rw [h1]
          simp [List.count_cons,
            count_success_replicate m TakeResult.errTaken (by decide)]
        · intro hnone; simp at hnone
        · intro r' _ res hres
          rw [h1] at hres
          rcases List.mem_cons.mp hres with hres | hres
          · exact Or.inl hres
          · exact Or.inr (List.mem_replicate.mp hres).2
        · intro r' _ _ _
          rw [h1]
          simp [List.count_cons,
            count_success_replicate m TakeResult.errTaken (by decide)]
    · have h1 : (runTakes db oid n).1 = List.replicate n TakeResult.errTaken := by
        rw [runTakes_not_unassigned hfr hs n]
      refine ⟨?_, ?_, ?_, ?_⟩
      · rw [h1, count_success_replicate n TakeResult.errTaken (by decide)]
        exact Nat.zero_le 1
      · intro hnone; simp at hnone
      · intro r' _ res hres
        rw [h1] at hres
        exact Or.inr (List.mem_replicate.mp hres).2
      · intro r' hr' hs' _
        obtain rfl := Option.some.inj hr'
        exact absurd hs' hs

/-- Witness for C1 at a concrete claimable store: three sequential claims
on order 7 of dbOne produce at most one success. -/
theorem claim_C1_witness :
    (runTakes dbOne 7 3).1.count TakeResult.success ≤ 1 :=
  (claim_C1_at_most_once_take dbOne 7 3).1

/-- C2.  Claim error contract: Take fails with errNoSuchOrder exactly when
no row with the id exists, fails with errTaken exactly when the row exists
with a state other than UNASSIGNED, succeeds exactly when the row exists in
state UNASSIGNED and then sets that state to TAKEN, and every failure path
leaves the table exactly as it was. -/
theorem claim_C2_take_error_contract (db : OrdersDb) (oid : Int) :
    ((Take db oid).1 = TakeResult.errNoSuchOrder ↔ findRow db oid = none) ∧
    ((Take db oid).1 = TakeResult.errTaken ↔
      ∃ r, findRow db oid = some r ∧ r.State ≠ StateUnassigned) ∧
    ((Take db oid).1 = TakeResult.success ↔
      ∃ r, findRow db oid = some r ∧ r.State = StateUnassigned) ∧
    ((Take db oid).1 ≠ TakeResult.success → (Take db oid).2 = db) ∧
    (∀ r, findRow db oid = some r → r.State = StateUnassigned →
      findRow (Take db oid).2 oid = some { r with State := StateTaken }) := by
  rcases hfr : findRow db oid with _ | r
  · have htk := take_of_none hfr
    refine ⟨?_, ?_, ?_, fun _ => by rw [htk], ?_⟩
    · rw [htk]; simp
    · rw [htk]; simp
    · rw [htk]; simp
    · intro r hr; simp at hr
  · by_cases hs : r.State = StateUnassigned
    · have htk := take_of_unassigned hfr hs
      refine ⟨?_, ?_, ?_, ?_, ?_⟩
      · rw [htk]; simp
      · rw [htk]
        constructor
        · intro hx; exact TakeResult.noConfusion hx
        · rintro ⟨r', hr', hs'⟩
          obtain rfl := Option.some.inj hr'
          exact absurd hs hs'
      · rw [htk]
        constructor
        · intro _; exact ⟨r, rfl, hs⟩
        · intro _; rfl
      · rw [htk]
        intro hne; exact absurd rfl hne
      · intro r' hr' _
        obtain rfl := Option.some.inj hr'
        rw [htk]
        exact findRow_take_success hfr hs htk
    · have htk := take_of_not_unassigned hfr hs
      refine ⟨?_, ?_, ?_, fun _ => by rw [htk], ?_⟩
      · rw [htk]; simp
      · rw [htk]
        constructor
        · intro _; exact ⟨r, rfl, hs⟩
        · intro _; rfl
      · rw [htk]
        constructor
        · intro hx; exact TakeResult.noConfusion hx
        · rintro ⟨r', hr', hs'⟩
          obtain rfl := Option.some.inj hr'
          exact absurd hs' hs
      · intro r' hr' hs'
        obtain rfl := Option.some.inj hr'
        exact absurd hs' hs

/-- Witness for C2 at a concrete missing id: taking order 9 of dbOne
reports errNoSuchOrder exactly when no row 9 exists. -/
theorem claim_C2_witness :
    ((Take dbOne 9).1 = TakeResult.errNoSuchOrder ↔ findRow dbOne 9 = none) :=
  (claim_C2_take_error_contract dbOne 9).1

/-- C3.  One-way state transition: after a successful Take on an order,
any sequence of Create/List/Claim operations leaves the order TAKEN, and a
subsequent Take on it fails with errTaken. -/
theorem claim_C3_one_way_transition (db db2 : OrdersDb) (oid : Int)
    (h : Take db oid = (TakeResult.success, db2)) (ops : List Op) :
    (∃ r2, findRow (applyOps db2 ops) oid = some r2 ∧
      r2.State = StateTaken) ∧
    (Take (applyOps db2 ops) oid).1 = TakeResult.errTaken := by
  rcases take_success_inv h with ⟨r, hfr, hs, _⟩
  have htk : findRow db2 oid = some { r with State := StateTaken } :=
    findRow_take_success hfr hs h
  rcases taken_persists_ops htk rfl ops with ⟨r2, h2, hs2⟩
  have hne : r2.State ≠ StateUnassigned := by
    rw [hs2]; exact Ne.symm unassigned_ne_taken
  refine ⟨⟨r2, h2, hs2⟩, ?_⟩
  rw [take_of_not_unassigned h2 hne]

/-- Witness for C3: after claiming order 7 of dbOne, a repeated claim and a
list leave it TAKEN and a further claim fails with errTaken. -/
theorem claim_C3_witness :
    Take dbOne 7 = (TakeResult.success, dbOneTaken) ∧
    (Take (applyOps dbOneTaken [Op.take 7, Op.listOp 0 50]) 7).1
      = TakeResult.errTaken :=
  ⟨by decide,
   (claim_C3_one_way_transition dbOne dbOneTaken 7 (by decide)
     [Op.take 7, Op.listOp 0 50]).2⟩

/-- C4 counterexample.  The claim says List(page, limit) returns the window
starting at offset page * limit; on a three-row store, List(1, 2) returns
the rows at offsets 1 and 2, not the window starting at offset 1 * 2 = 2,
so the claim as stated is false. -/
theorem claim_C4_counterexample :
    ¬ ListOrders dbThree 1 2 = Except.ok (listSpecWindow dbThree 1 2) := by
  intro h
  have h1 : ListOrders dbThree 1 2 =
      Except.ok [{ Id := 2, Distance := 20, State := StateUnassigned },
                 { Id := 3, Distance := 30, State := StateUnassigned }] := by rfl
  have h2 : listSpecWindow dbThree 1 2 =
      [{ Id := 3, Distance := 30, State := StateUnassigned }] := by rfl
  rw [h1, h2] at h
  have h3 := Except.ok.inj h
  exact absurd h3 (by decide)

/-- C4 amended.  For non-negative page and limit on a well-formed store with
canonical statuses, List(page, limit) succeeds and returns the window of at
most `limit` rows starting at the raw offset `page` (the page parameter is
the SQL OFFSET itself, not multiplied by limit), in id-ascending order; a
page at or beyond the end yields the empty sequence, not an error. -/
theorem claim_C4_window_raw_offset (db : OrdersDb) (page lim : Int)
    (hwf : WF db) (_hp : 0 ≤ page) (hl : 0 ≤ lim) (hc : allCanonical db) :
    ListOrders db page lim = Except.ok (sqlWindow db.rows lim page) ∧
    sqlWindow db.rows lim page = (db.rows.drop page.toNat).take lim.toNat ∧
    (sqlWindow db.rows lim page).length ≤ lim.toNat ∧
    (sqlWindow db.rows lim page).Pairwise (fun a b => a.Id < b.Id) ∧
    (db.rows.length ≤ page.toNat → sqlWindow db.rows lim page = []) := by
  have hwin : sqlWindow db.rows lim page
      = (db.rows.drop page.toNat).take lim.toNat := by
    unfold sqlWindow
    rw [if_neg (not_lt.mpr hl)]
  have hsub : (sqlWindow db.rows lim page).Sublist db.rows :=
    sqlWindow_sublist db.rows lim page
  refine ⟨?_, hwin, ?_, ?_, ?_⟩
  · unfold ListOrders
    exact scanRows_ok_of_canonical _ (fun r hr => hc r (hsub.mem hr))
  · rw [hwin]
    exact List.length_take_le _ _
  · exact hwf.1.sublist hsub
  · intro hlen
    rw [hwin, List.drop_eq_nil_of_le hlen]
    simp

/-- Witness for the amended C4 at the concrete store dbThree with
page = 1, limit = 2. -/
theorem claim_C4_witness :
    WF dbThree ∧ allCanonical dbThree ∧
    ListOrders dbThree 1 2 = Except.ok (sqlWindow dbThree.rows 2 1) :=
  ⟨by decide, by decide,
   (claim_C4_window_raw_offset dbThree 1 2 (by decide) (by decide) (by decide)
     (by decide)).1⟩

/-- C5.  Fail-fast on unknown status: whenever a row the List call reads
(the requested window) carries a status outside the two canonical values,
the whole call fails with the unknown-state error; when every stored status
is canonical, List succeeds. -/
theorem claim_C5_unknown_status_fail_fast (db : OrdersDb) (page lim : Int) :
    (∀ r ∈ sqlWindow db.rows lim page,
      r.State ≠ StateUnassigned → r.State ≠ StateTaken →
      ∃ msg, ListOrders db page lim = Except.error msg) ∧
    (allCanonical db → ∃ orders, ListOrders db page lim = Except.ok orders) := by
  constructor
  · intro r hr hu ht
    exact scanRows_error_of_bad hr hu ht
  · intro hc
    refine ⟨sqlWindow db.rows lim page, ?_⟩
    unfold ListOrders
    exact scanRows_ok_of_canonical _
      (fun r hr => hc r ((sqlWindow_sublist db.rows lim page).mem hr))

/-- Witness for C5 at the concrete corrupt store: the INITAL row sits in
the window of List(0, 50), so the call fails. -/
theorem claim_C5_witness :
    ({ Id := 5, Distance := 11, State := "INITAL" } : Order)
        ∈ sqlWindow dbCorrupt.rows 50 0 ∧
    ∃ msg, ListOrders dbCorrupt 0 50 = Except.error msg :=
  ⟨by decide,
    (claim_C5_unknown_status_fail_fast dbCorrupt 0 50).1
      { Id := 5, Distance := 11, State := "INITAL" } (by decide) (by decide)
      (by decide)⟩

/-- C6.  Create atomicity with respect to lookup failure: when the decoded
lookup result has no rows, or its first row has no elements, Insert fails
with the corresponding missing-data error and the table is unchanged; the
table changes only when the lookup produced a usable first entry. -/
theorem claim_C6_insert_no_row_on_empty_lookup (db : OrdersDb)
    (resp : GoogleMapsResponse) :
    ((resp.Rows = [] ∨ ∃ fr rest, resp.Rows = fr :: rest ∧ fr.Elements = []) →
      ∃ msg, Insert db resp = (Except.error msg, db)) ∧
    ((Insert db resp).2 ≠ db →
      ∃ fr rest el els, resp.Rows = fr :: rest ∧ fr.Elements = el :: els) := by
  constructor
  · rintro (hnil | ⟨fr, rest, hrows, helems⟩)
    · exact ⟨"Google Maps response missing rows", by simp [Insert, hnil]⟩
    · exact ⟨"Google Maps response missing rows.elements",
        by simp [Insert, hrows, helems]⟩
  · intro hch
    rcases hrows : resp.Rows with _ | ⟨fr, rest⟩
    · exact absurd (by simp [Insert, hrows]) hch
    · rcases helems : fr.Elements with _ | ⟨el, els⟩
      · exact absurd (by simp [Insert, hrows, helems]) hch
      · exact ⟨fr, rest, el, els, rfl, helems⟩

/-- Witness for C6 at a concrete empty lookup response: no row is inserted
into dbOne. -/
theorem claim_C6_witness :
    ∃ msg, Insert dbOne { Rows := [] } = (Except.error msg, dbOne) :=
  (claim_C6_insert_no_row_on_empty_lookup dbOne { Rows := [] }).1
    (Or.inl rfl)

/-- The freshly inserted row is found under the id the store assigned,
because every pre-existing id is strictly below it. -/
theorem findRow_dbInsert_new (db : OrdersDb) (hwf : WF db) (d : Int)
    (st : String) :
    findRow (dbInsert db d st).2 db.nextId
      = some { Id := db.nextId, Distance := d, State := st } := by
  unfold findRow dbInsert
  rw [List.find?_append]
  have hnone : List.find? (fun r => r.Id == db.nextId) db.rows = none :=
    List.find?_eq_none.mpr (fun x hx => by
      simp only [beq_iff_eq]
      exact ne_of_lt (hwf.2 x hx))
  have hsingle : List.find? (fun r : Order => r.Id == db.nextId)
      ([{ Id := db.nextId, Distance := d, State := st }] : List Order)
      = some { Id := db.nextId, Distance := d, State := st } :=
    List.find?_cons_of_pos _ (by simp)
  rw [hnone, hsingle]
  rfl

/-- C7.  Create postcondition: with a usable first entry in the lookup
response, Insert succeeds and returns the order whose state is UNASSIGNED,
whose distance is the distance value of the first element of the first
result row, and whose id is the store-assigned identifier under which the
newly inserted row is found. -/
theorem claim_C7_insert_postcondition (db : OrdersDb)
    (resp : GoogleMapsResponse) (fr : GMapsRow) (frs : List GMapsRow)
    (el : GMapsElement) (els : List GMapsElement) (hwf : WF db)
    (hrows : resp.Rows = fr :: frs) (helems : fr.Elements = el :: els) :
    Insert db resp =
      (Except.ok { Id := db.nextId, Distance := el.Distance.Value, State := StateUnassigned },
       (dbInsert db el.Distance.Value StateUnassigned).2) ∧
    findRow (Insert db resp).2 db.nextId =
      some { Id := db.nextId, Distance := el.Distance.Value, State := StateUnassigned } := by
  have h1 : Insert db resp =
      (Except.ok { Id := db.nextId, Distance := el.Distance.Value, State := StateUnassigned },
       (dbInsert db el.Distance.Value StateUnassigned).2) := by
    simp [Insert, hrows, helems, dbInsert]
  refine ⟨h1, ?_⟩
  rw [h1]
  exact findRow_dbInsert_new db hwf el.Distance.Value StateUnassigned

/-- Witness for C7: inserting into dbOne with a one-row one-element lookup
response of distance 777 returns the order with the assigned id 8. -/
theorem claim_C7_witness :
    WF dbOne ∧
    Insert dbOne { Rows := [{ Elements := [{ Distance := { Value := 777, Text := "t" } }] }] } =
      (Except.ok { Id := 8, Distance := 777, State := StateUnassigned },
       (dbInsert dbOne 777 StateUnassigned).2) :=
  ⟨by decide,
   (claim_C7_insert_postcondition dbOne
     { Rows := [{ Elements := [{ Distance := { Value := 777, Text := "t" } }] }] }
     { Elements := [{ Distance := { Value := 777, Text := "t" } }] } []
     { Distance := { Value := 777, Text := "t" } } [] (by decide) rfl rfl).1⟩

/-- C8.  Claim frame condition: a successful Take changes only the state
field of the rows bearing the claimed id; ids and distances are untouched,
every row with a different id is wholly unchanged, no row is added or
removed, and the id counter is unchanged. -/
theorem claim_C8_take_frame (db db2 : OrdersDb) (oid : Int)
    (h : Take db oid = (TakeResult.success, db2)) :
    db2.nextId = db.nextId ∧
    db2.rows.length = db.rows.length ∧
    ∀ i (hi : i < db.rows.length) (hi2 : i < db2.rows.length),
      ((db2.rows.get ⟨i, hi2⟩).Id = (db.rows.get ⟨i, hi⟩).Id) ∧
      ((db2.rows.get ⟨i, hi2⟩).Distance = (db.rows.get ⟨i, hi⟩).Distance) ∧
      ((db.rows.get ⟨i, hi⟩).Id ≠ oid →
        db2.rows.get ⟨i, hi2⟩ = db.rows.get ⟨i, hi⟩) ∧
      ((db.rows.get ⟨i, hi⟩).Id = oid →
        (db2.rows.get ⟨i, hi2⟩).State = StateTaken) := by
  rcases take_success_inv h with ⟨r, _, _, hdb2⟩
  subst hdb2
  refine ⟨rfl, by simp, ?_⟩
  intro i hi hi2
  have hg : (List.map (updSt oid) db.rows).get ⟨i, hi2⟩
      = updSt oid (db.rows.get ⟨i, hi⟩) := by
    simp [List.get_eq_getElem, List.getElem_map]
  refine ⟨?_, ?_, ?_, ?_⟩
  · rw [hg, updSt_Id]
  · rw [hg, updSt_Distance]
  · intro hne
    rw [hg, updSt_of_ne oid _ hne]
  · intro heq
    rw [hg, updSt_of_eq oid _ heq]

/-- Witness for C8: claiming order 7 of dbOne keeps the id counter and the
row count. -/
theorem claim_C8_witness :
    Take dbOne 7 = (TakeResult.success, dbOneTaken) ∧
    dbOneTaken.nextId = dbOne.nextId ∧
    dbOneTaken.rows.length = dbOne.rows.length :=
  ⟨by decide,
   (claim_C8_take_frame dbOne dbOneTaken 7 (by decide)).1,
   (claim_C8_take_frame dbOne dbOneTaken 7 (by decide)).2.1⟩

/-- C9.  List parameter defaults: with no page and no limit query
parameter supplied, parsing yields page = 0 and limit = 50 with no
error. -/
theorem claim_C9_list_defaults :
    parseQueryParametersForList [] [] = (0, 50, none) := rfl

/-- C10.  Take treats every status other than UNASSIGNED as already taken:
on a row with an unrecognized status it fails with errTaken (leaving the
table unchanged), whereas List fails the whole call with the unknown-state
error whenever that row is inside the scanned window. -/
theorem claim_C10_take_unknown_status (db : OrdersDb) (oid : Int) (r : Order)
    (h : findRow db oid = some r)
    (hu : r.State ≠ StateUnassigned) (ht : r.State ≠ StateTaken) :
    Take db oid = (TakeResult.errTaken, db) ∧
    ∀ page lim : Int, r ∈ sqlWindow db.rows lim page →
      ∃ msg, ListOrders db page lim = Except.error msg := by
  refine ⟨take_of_not_unassigned h hu, ?_⟩
  intro page lim hmem
  exact scanRows_error_of_bad hmem hu ht

/-- Witness for C10 at the concrete corrupt store: taking the INITAL row
fails with errTaken and leaves the store unchanged. -/
theorem claim_C10_witness :
    findRow dbCorrupt 5 = some { Id := 5, Distance := 11, State := "INITAL" } ∧
    Take dbCorrupt 5 = (TakeResult.errTaken, dbCorrupt) :=
  ⟨by decide,
   (claim_C10_take_unknown_status dbCorrupt 5
     { Id := 5, Distance := 11, State := "INITAL" } (by decide) (by decide)
     (by decide)).1⟩

end OrderService
